import Mathlib

/-!
Verification of the lite-image-export core against its specification.

The Go source is shallowly embedded: layer descriptors, the manifest
builder of `streamDockerFormatWithReturn`, the repositories builder, the
archive assembler `assembleImageTar`/`addFileToTar`, the authentication
handshake of `downloadLayerWithRetry` (with `parseAuthHeader`), and the
resumable download loop of `downloadLayerWithRetry` as a fuel-indexed
interpreter over an oracle of HTTP responses.  Filesystem files are
`Option (List Nat)` (missing vs byte content); the SHA-256 digest is an
abstract parameter `sha : List Nat -> String`, and the digest string
rendered by the code is `"sha256:" ++ sha content`.
-/

/-- A content hash, mirroring go-containerregistry's `v1.Hash`
(`Algorithm` and `Hex` fields); `String()` renders `algorithm:hex`. -/
structure Hash where
  algorithm : String
  hex : String
deriving DecidableEq, Repr

/-- `v1.Hash.String()`. -/
def Hash.toStr (h : Hash) : String := h.algorithm ++ ":" ++ h.hex

/-- An image layer, reduced to the one field the manifest logic reads. -/
structure Layer where
  digest : Hash
deriving DecidableEq, Repr

/-- The layer filter of the superseded prototype `streamImageLayers`
(part_002 lines 648-652): `arrutil.Filter` keeps layers whose
`digest.Hex` is not contained in `existLayers`. -/
def filterLayersV2 (layers : List Layer) (existLayers : List String) : List Layer :=
  layers.filter (fun l => !(existLayers.contains l.digest.hex))

/-- The shipped `streamImageLayers` (part_003 lines 441-460): the
`existLayers` argument is ignored and the full layer list is passed on,
both for download and for manifest generation ("download all layers to
ensure Docker compatibility"). -/
def streamImageLayersAll (layers : List Layer) (existLayers : List String) : List Layer :=
  layers

/-- One entry of `manifest.json` as built by `streamDockerFormatWithReturn`
(part_003 lines 541-551). -/
structure ManifestEntry where
  Config : String
  RepoTags : List String
  Layers : List String
deriving DecidableEq, Repr

/-- `layerDigests` of `streamDockerFormatWithReturn` (part_003 lines
483-490): digests of every layer of the list it receives, in order. -/
def buildLayerDigests (layers : List Layer) : List String :=
  layers.map (fun l => l.digest.toStr)

/-- `singleManifest` of `streamDockerFormatWithReturn` (part_003 lines
541-551): config reference `<digest>.json`, repo tags `[imageRef]`, and
layer references `<digest>.tar` from `layerDigests`. -/
def buildSingleManifest (configDigest imageRef : String) (layerDigests : List String) :
    ManifestEntry :=
  { Config := configDigest ++ ".json"
    RepoTags := [imageRef]
    Layers := layerDigests.map (fun d => d ++ ".tar") }

/-- The manifest entry produced by the shipped pipeline
(`streamImageLayers` of part_003 handing its full layer list to
`streamDockerFormatWithReturn`). -/
def exportManifestEntry (layers : List Layer) (existLayers : List String)
    (configDigest imageRef : String) : ManifestEntry :=
  buildSingleManifest configDigest imageRef
    (buildLayerDigests (streamImageLayersAll layers existLayers))

/-- Test layer with digest hex `h<i>`. -/
def mkTestLayer (i : Nat) : Layer := ⟨⟨"sha256", "h" ++ Nat.repr i⟩⟩

/-- A 25-layer image, as in the spec's LayerPlan example. -/
def layers25 : List Layer := (List.range 25).map mkTestLayer

/-- Host-known digests for 10 of the 25 layers. -/
def exist10 : List String := (List.range 10).map (fun i => "h" ++ Nat.repr i)

/-- `strings.LastIndex(imageRef, ":")`-based split of
`streamDockerFormatWithReturn` (part_003 lines 555-559): repository name
before the last colon, tag after it; `none` when no colon occurs. -/
def splitLastColon (s : String) : Option (String × String) :=
  let cs := s.toList
  if ':' ∈ cs then
    some (String.mk (((cs.reverse.dropWhile (fun c => c ≠ ':')).drop 1).reverse),
          String.mk ((cs.reverse.takeWhile (fun c => c ≠ ':')).reverse))
  else none

/-- The `repositories` map built by the shipped
`streamDockerFormatWithReturn` (part_003 lines 554-560): one entry when
the reference holds a colon, no entry otherwise. -/
def buildRepositories (imageRef configDigest : String) :
    List (String × List (String × String)) :=
  match splitLastColon imageRef with
  | some (repoName, tag) => [(repoName, [(tag, configDigest)])]
  | none => []

/-- The `repositories` map of the cache prototype's `writeMetadata`
(part_002 lines 1235-1240): `strings.Cut` at the first colon, tag
defaulting to `latest` when empty. -/
def writeMetadataRepositories (imageRef configDigest : String) :
    List (String × List (String × String)) :=
  let cs := imageRef.toList
  let repoName := String.mk (cs.takeWhile (fun c => c ≠ ':'))
  let tag0 := String.mk ((cs.dropWhile (fun c => c ≠ ':')).drop 1)
  let tag := if tag0 = "" then "latest" else tag0
  [(repoName, [(tag, configDigest)])]

/-- The output directory as a flat filesystem: file name to byte content. -/
abbrev FileSys := List (String × List Nat)

/-- File lookup; `none` models a file that `os.Open`/`os.Stat` cannot find. -/
def fsLookup (fs : FileSys) (p : String) : Option (List Nat) :=
  (fs.find? (fun e => e.1 == p)).map (fun e => e.2)

/-- One entry written into the output tar stream. -/
structure TarEntry where
  name : String
  content : List Nat
deriving DecidableEq, Repr

/-- Errors of `assembleImageTar` / `addFileToTar` (part_003). -/
inductive TarError where
  | openFailed (path : String)
  | manifestReadFailed
  | emptyManifest
deriving DecidableEq, Repr

/-- `addFileToTar` (part_003 lines 674-701): opens the file and writes a
header plus its content; when `os.Open` fails the error is returned,
there is no skip path. -/
def addFileToTar (fs : FileSys) (path nameInTar : String) : Except TarError TarEntry :=
  match fsLookup fs path with
  | none => .error (.openFailed path)
  | some c => .ok { name := nameInTar, content := c }

/-- One parsed entry of `manifest.json` as `assembleImageTar` reads it:
`m["Config"].(string)` may fail its type assertion (then the config is
skipped), and the `Layers` array is walked in order. -/
structure RawManifestEntry where
  config : Option String
  layers : List String
deriving DecidableEq, Repr

/-- The per-image body of `assembleImageTar`'s manifest loop (part_003
lines 644-667): add the config file, then every referenced layer file;
any `addFileToTar` failure aborts with its error. -/
def addManifestFiles (fs : FileSys) (m : RawManifestEntry) : Except TarError (List TarEntry) := do
  let cfgEntries ← match m.config with
    | some cfg => do
        let e ← addFileToTar fs cfg cfg
        pure [e]
    | none => pure []
  let layerEntries ← m.layers.mapM (fun lp => addFileToTar fs lp lp)
  pure (cfgEntries ++ layerEntries)

/-- `assembleImageTar` (part_003 lines 598-672): read `manifest.json`
(parsed here as `manifest`), fail on an empty manifest, then stream
`manifest.json`, the optional `repositories` file (the only file whose
existence is checked before adding), each config, and each referenced
layer file into the tar. -/
def assembleImageTar (manifest : List RawManifestEntry) (fs : FileSys) :
    Except TarError (List TarEntry) := do
  let mdata ← match fsLookup fs "manifest.json" with
    | none => Except.error TarError.manifestReadFailed
    | some c => pure c
  if manifest.isEmpty then
    Except.error TarError.emptyManifest
  else
    let base := [TarEntry.mk "manifest.json" mdata]
    let base2 := match fsLookup fs "repositories" with
      | some c => base ++ [TarEntry.mk "repositories" c]
      | none => base
    let rest ← manifest.mapM (addManifestFiles fs)
    pure (base2 ++ rest.flatten)

/-- The concrete output directory of the C2 failing input: everything
the manifest references is present except `missing.tar`. -/
def fsC2 : FileSys :=
  [("manifest.json", [1]), ("repositories", [2]), ("c.json", [3]), ("a.tar", [4])]

/-- The manifest of the C2 failing input: it references `missing.tar`,
which is absent from the output directory. -/
def manifestC2 : List RawManifestEntry :=
  [{ config := some "c.json", layers := ["a.tar", "missing.tar"] }]

/-- `strings.SplitN(s, sep, 2)` on char lists: `none` when the separator
does not occur, otherwise the parts before and after its first
occurrence. -/
def splitFirst (sep : Char) : List Char → Option (List Char × List Char)
  | [] => none
  | c :: rest =>
    if c = sep then some ([], rest)
    else (splitFirst sep rest).map (fun p => (c :: p.1, p.2))

/-- `strings.Split` on char lists (accumulator form). -/
def splitAllAux (sep : Char) : List Char → List Char → List (List Char)
  | [], acc => [acc.reverse]
  | c :: rest, acc =>
    if c = sep then acc.reverse :: splitAllAux sep rest []
    else splitAllAux sep rest (c :: acc)

/-- `strings.Trim(s, "\"")`: strip leading and trailing quote characters. -/
def trimQuotes (cs : List Char) : List Char :=
  ((cs.dropWhile (fun c => c = '"')).reverse.dropWhile (fun c => c = '"')).reverse

/-- `parseAuthHeader` (part_003 lines 167-180): split the header at the
first space; when the first part is `Bearer`, split the remainder at
commas and collect every `key=value` pair (value trimmed of quotes),
later assignments overwriting earlier ones. -/
def parseAuthHeader (header : String) : List (String × String) :=
  match splitFirst ' ' header.toList with
  | none => []
  | some p =>
    if p.1 = "Bearer".toList then
      (splitAllAux ',' p.2 []).filterMap (fun param =>
        (splitFirst '=' param).map (fun kv => (String.mk kv.1, String.mk (trimQuotes kv.2))))
    else []

/-- Go map lookup for the assoc list built by `parseAuthHeader`: the
last binding of a key wins; a missing key reads as the zero value `""`
via `getD` at the call sites. -/
def lookupLast (m : List (String × String)) (k : String) : Option String :=
  (m.reverse.find? (fun e => e.1 == k)).map (fun e => e.2)

/-- The `realm`, `service` and `scope` extraction of the token closure
in `downloadLayerWithRetry` (part_003 lines 254-261), with the
`repository:<repo>:pull` default when `scope` is empty or absent. -/
def challengeFields (repo header : String) : String × String × String :=
  let m := parseAuthHeader header
  let realm := (lookupLast m "realm").getD ""
  let service := (lookupLast m "service").getD ""
  let scope0 := (lookupLast m "scope").getD ""
  let scope := if scope0 = "" then "repository:" ++ repo ++ ":pull" else scope0
  (realm, service, scope)

/-- `tokenURL` of part_003 line 263: `realm?service=...&scope=...`. -/
def tokenURL (realm service scope : String) : String :=
  realm ++ "?service=" ++ service ++ "&scope=" ++ scope

/-- The probe response of `GET https://<registry>/v2/`. -/
structure ProbeResp where
  status : Nat
  authHeader : String
deriving DecidableEq, Repr

/-- The token endpoint's response: HTTP status and the decoded JSON
`token` field (`none` models a JSON decode failure). -/
structure TokenResp where
  status : Nat
  token : Option String
deriving DecidableEq, Repr

/-- Authentication errors of the token closure. -/
inductive AuthErr where
  | probeStatus (code : Nat)
  | tokenStatus (code : Nat)
  | tokenDecode
deriving DecidableEq, Repr

/-- The token acquisition closure of `downloadLayerWithRetry` (part_003
lines 238-286): 200 probe yields the empty token, 401 drives the
challenge/token exchange, anything else is fatal; a non-200 token
response or an undecodable body is fatal. -/
def getAuthToken (repo : String) (probe : ProbeResp) (fetchToken : String → TokenResp) :
    Except AuthErr String :=
  if probe.status = 401 then
    let f := challengeFields repo probe.authHeader
    let tr := fetchToken (tokenURL f.1 f.2.1 f.2.2)
    if tr.status ≠ 200 then .error (.tokenStatus tr.status)
    else
      match tr.token with
      | none => .error .tokenDecode
      | some t => .ok t
  else if probe.status ≠ 200 then .error (.probeStatus probe.status)
  else .ok ""

/-- `maxRetries` (part_003 line 164). -/
def maxRetries : Nat := 5

/-- `getFileSize` (part_003 lines 183-188) over the modeled file:
0 when the file is missing. -/
def fileSize : Option (List Nat) → Nat
  | none => 0
  | some c => c.length

/-- `validateFileIntegrity` (part_003 lines 191-209) as a predicate: the
streamed digest `"sha256:" + hex` must equal the expected digest.  The
SHA-256 hex rendering is the abstract parameter `sha`. -/
def validateFileIntegrity (sha : List Nat → String) (content : List Nat)
    (expectedDigest : String) : Bool :=
  ("sha256:" ++ sha content) == expectedDigest

/-- The observable outcome of one HTTP attempt in the retry loop of
`downloadLayerWithRetry`: a transport error (`client.Do` fails), or a
response with status `code`, where `openOk` models the `os.OpenFile`
result, `body` the bytes written by `io.Copy`, and `copyOk` whether the
copy ran to completion. -/
inductive BlobResp where
  | netErr
  | http (code : Nat) (openOk : Bool) (body : List Nat) (copyOk : Bool)
deriving DecidableEq, Repr

/-- Effect of one response on the destination file (part_003 lines
360-396): 206 appends to an existing file (`O_APPEND` fails when it is
missing), 200 replaces it (`O_CREATE|O_TRUNC`), any other status leaves
it untouched; a failed copy still keeps the bytes written so far.  The
second component is `chunkDownloaded`. -/
def applyResp (file : Option (List Nat)) (r : BlobResp) : Option (List Nat) × Bool :=
  match r with
  | .netErr => (file, false)
  | .http code openOk body copyOk =>
    if code = 206 then
      match file, openOk with
      | some c, true => (some (c ++ body), copyOk)
      | _, _ => (file, false)
    else if code = 200 then
      if openOk then (some body, copyOk) else (file, false)
    else (file, false)

/-- What one request of the retry loop looks like from outside: the
on-disk size when it is issued, the `Range: bytes=<n>-` header (present
exactly when that size is positive, part_003 lines 334-336), and the
backoff sleep in seconds taken after a failed attempt
(`(retries+1) * 2`, with `retries` already incremented for attempts
that started from an empty file, part_003 lines 337-345). -/
structure Attempt where
  fsizeAtReq : Nat
  range : Option Nat
  sleepSec : Option Nat
deriving DecidableEq, Repr

/-- Result of the inner retry loop (part_003 lines 322-401): either the
loop finished (`ok` is `chunkDownloaded`, `rest` the unconsumed
responses), or the response oracle ran out mid-loop. -/
inductive CycleResult where
  | done (rest : List BlobResp) (file : Option (List Nat)) (ok : Bool) (trace : List Attempt)
  | stuck (file : Option (List Nat)) (trace : List Attempt)
deriving DecidableEq, Repr

/-- Trace projection of the inner loop result. -/
def CycleResult.traceOf : CycleResult → List Attempt
  | .done _ _ _ t => t
  | .stuck _ t => t

/-- The inner retry loop of `downloadLayerWithRetry` (part_003 lines
320-401): at the top `retries < maxRetries` is checked; the counter is
incremented before the request only when the file is empty (the `else`
of the Range branch); every failed attempt sleeps `(retries+1)*2`
seconds and loops, a successful chunk breaks out. -/
def downloadCycle : List BlobResp → Option (List Nat) → Nat → CycleResult
  | oracle, file, retries =>
    if maxRetries ≤ retries then .done oracle file false []
    else
      match oracle with
      | [] => .stuck file []
      | r :: rest =>
        let csize := fileSize file
        let retries2 := if 0 < csize then retries else retries + 1
        let res := applyResp file r
        let att : Attempt :=
          { fsizeAtReq := csize
            range := if 0 < csize then some csize else none
            sleepSec := if res.2 then none else some ((retries2 + 1) * 2) }
        if res.2 then .done rest res.1 true [att]
        else
          match downloadCycle rest res.1 retries2 with
          | .done o f k t => .done o f k (att :: t)
          | .stuck f t => .stuck f (att :: t)

/-- Outcome of the outer loop of `downloadLayerWithRetry`: success
(return nil), failure (the retry-exhaustion error return), or
undetermined because fuel or the response oracle ran out (the code can
loop forever). -/
inductive FetchOutcome where
  | success (file : Option (List Nat)) (trace : List Attempt)
  | failure (file : Option (List Nat)) (trace : List Attempt)
  | undet (file : Option (List Nat)) (trace : List Attempt)
deriving DecidableEq, Repr

/-- Prepend earlier attempts to an outcome's trace. -/
def FetchOutcome.consTrace (t : List Attempt) : FetchOutcome → FetchOutcome
  | .success f t2 => .success f (t ++ t2)
  | .failure f t2 => .failure f (t ++ t2)
  | .undet f t2 => .undet f (t ++ t2)

/-- Trace projection of an outcome. -/
def FetchOutcome.traceOf : FetchOutcome → List Attempt
  | .success _ t => t
  | .failure _ t => t
  | .undet _ t => t

/-- The outer `for {}` loop of `downloadLayerWithRetry` (part_003 lines
292-406): when the file has reached the expected size it is validated —
success on a match, `os.Remove` and restart on a mismatch; an oversized
file is truncated to zero; then one inner retry cycle runs, whose
exhaustion is the error return `经过 %d 次尝试后，层块下载失败`. -/
def downloadLoop (sha : List Nat → String) (size : Int) (digest : String) :
    Nat → List BlobResp → Option (List Nat) → FetchOutcome
  | 0, _, file => .undet file []
  | fuel + 1, oracle, file =>
    if 0 < size ∧ (fileSize file : Int) = size then
      if validateFileIntegrity sha (file.getD []) digest then .success file []
      else downloadLoop sha size digest fuel oracle none
    else
      let file1 := if 0 < size ∧ size < (fileSize file : Int) then some [] else file
      match downloadCycle oracle file1 0 with
      | .stuck f t => .undet f t
      | .done o f true t => (downloadLoop sha size digest fuel o f).consTrace t
      | .done _ f false t => .failure f t

/-- Result of the pre-download check. -/
inductive PreResult where
  | finished
  | proceed (file : Option (List Nat))
deriving DecidableEq, Repr

/-- The pre-download check of `downloadLayerWithRetry` (part_003 lines
218-235): a file already at the expected size is validated when an
expected digest is given — returning nil on a match and deleting the
file on a mismatch — and accepted on size alone when the expected digest
is empty. -/
def preCheck (sha : List Nat → String) (size : Int) (digest : String)
    (file : Option (List Nat)) : PreResult :=
  if 0 < (fileSize file : Int) ∧ 0 < size ∧ (fileSize file : Int) = size then
    if digest ≠ "" then
      if validateFileIntegrity sha (file.getD []) digest then .finished
      else .proceed none
    else .finished
  else .proceed file

/-- `downloadLayerWithRetry` (part_003 lines 212-407): the pre-download
check followed by the resumable download loop.  (The token acquisition
between the two is modeled separately by `getAuthToken`.) -/
def downloadLayerWithRetry (sha : List Nat → String) (size : Int) (digest : String)
    (fuel : Nat) (oracle : List BlobResp) (file : Option (List Nat)) : FetchOutcome :=
  match preCheck sha size digest file with
  | .finished => .success file []
  | .proceed f => downloadLoop sha size digest fuel oracle f

/-- A response that opens no file: a transport error, a non-206/200
status, or a failed open.  Such an attempt leaves the file untouched. -/
def nonWriting (r : BlobResp) : Bool :=
  match r with
  | .netErr => true
  | .http code openOk _ _ => !(((code == 206) || (code == 200)) && openOk)

/-- The trace of a budget-consuming cycle that starts at counter
`retries`: `maxRetries - retries` failed empty-file attempts whose k-th
sleep is `(retries + k + 2) * 2` seconds. -/
def nwTrace (retries : Nat) : List Attempt :=
  (List.range (maxRetries - retries)).map
    (fun k => ⟨0, none, some ((retries + k + 2) * 2)⟩)

/-- C1: for every exported image the manifest entry's Layers list is
derived from the image's full ordered layer list, so its length equals
the length of the full layer list, for every host-known-digest set; the
entries are `<digest>.tar` in original layer order. -/
theorem c1_manifest_layers_from_full_list
    (layers : List Layer) (existLayers : List String) (configDigest imageRef : String) :
    (exportManifestEntry layers existLayers configDigest imageRef).Layers.length
        = layers.length
      ∧ (exportManifestEntry layers existLayers configDigest imageRef).Layers
        = layers.map (fun l => l.digest.toStr ++ ".tar") := by
  constructor
  · simp [exportManifestEntry, buildSingleManifest, buildLayerDigests, streamImageLayersAll]
  · simp [exportManifestEntry, buildSingleManifest, buildLayerDigests, streamImageLayersAll]

/-- C4 counterexample: the shipped `streamImageLayers` (part_003) hands
all 25 layers to the downloader even though 10 digests are host-known;
the claimed to-download subset of 15 layers is the prototype's filter
(part_002), which the shipped code does not apply. -/
theorem c4_counterexample :
    (streamImageLayersAll layers25 exist10).length = 25
      ∧ (filterLayersV2 layers25 exist10).length = 15
      ∧ streamImageLayersAll layers25 exist10 ≠ filterLayersV2 layers25 exist10 := by
  refine ⟨by decide, by decide, by decide⟩

/-- C4 amended: the shipped plan keeps the full ordered list and
downloads it whole (the to-download list is the full list, for every
host-known set); the superseded prototype's filter returns exactly the
layers whose digest hex is not host-known, as an order-preserving
sublist, but that filtered list is also what the prototype's manifest
was built from.  The manifest of the shipped pipeline always has one
layer reference per layer of the full list. -/
theorem c4_amended_plan :
    (∀ (layers : List Layer) (existLayers : List String),
        streamImageLayersAll layers existLayers = layers)
      ∧ (∀ (layers : List Layer) (existLayers : List String),
          (filterLayersV2 layers existLayers).Sublist layers)
      ∧ (∀ (layers : List Layer) (existLayers : List String) (l : Layer),
          l ∈ filterLayersV2 layers existLayers
            ↔ l ∈ layers ∧ existLayers.contains l.digest.hex = false)
      ∧ (∀ (layers : List Layer) (existLayers : List String) (cfg ref : String),
          (exportManifestEntry layers existLayers cfg ref).Layers.length = layers.length) := by
  refine ⟨fun _ _ => rfl, fun layers existLayers => List.filter_sublist _, ?_, ?_⟩
  · intro layers existLayers l
    simp [filterLayersV2, List.mem_filter, Bool.not_eq_true']
  · intro layers existLayers cfg ref
    simp [exportManifestEntry, buildSingleManifest, buildLayerDigests, streamImageLayersAll]

/-- C10 counterexample: for the tagless reference `repo/name` the
shipped builder writes no repositories entry at all, instead of
defaulting the tag to `latest`; and the cited `writeMetadata` prototype
splits at the first colon, not the last. -/
theorem c10_counterexample :
    buildRepositories "repo/name" "sha256:c" = []
      ∧ buildRepositories "repo/name" "sha256:c"
          ≠ [("repo/name", [("latest", "sha256:c")])]
      ∧ writeMetadataRepositories "a:b/c:d" "sha256:c"
          = [("a", [("b/c:d", "sha256:c")])] := by
  refine ⟨by decide, by decide, by decide⟩

/-- Helper: takeWhile over a colon-free prefix stops exactly at the colon. -/
theorem takeWhileNeColon_append (l r : List Char) (h : ∀ c ∈ l, c ≠ ':') :
    (l ++ ':' :: r).takeWhile (fun c => c ≠ ':') = l := by
  induction l with
  | nil => simp [List.takeWhile_cons]
  | cons a t ih =>
      have ha : a ≠ ':' := h a (List.mem_cons_self a t)
      have ih' := ih (fun c hc => h c (List.mem_cons_of_mem _ hc))
      simp [List.takeWhile_cons, ha]
      simpa using ih'

/-- Helper: dropWhile over a colon-free prefix lands on the colon. -/
theorem dropWhileNeColon_append (l r : List Char) (h : ∀ c ∈ l, c ≠ ':') :
    (l ++ ':' :: r).dropWhile (fun c => c ≠ ':') = ':' :: r := by
  induction l with
  | nil => simp [List.dropWhile_cons]
  | cons a t ih =>
      have ha : a ≠ ':' := h a (List.mem_cons_self a t)
      have ih' := ih (fun c hc => h c (List.mem_cons_of_mem _ hc))
      simp [List.dropWhile_cons, ha]
      simpa using ih'

/-- Helper: takeWhile keeps a fully colon-free list. -/
theorem takeWhileNeColon_all (l : List Char) (h : ∀ c ∈ l, c ≠ ':') :
    l.takeWhile (fun c => c ≠ ':') = l := by
  simp
  exact h

/-- Helper: dropWhile exhausts a fully colon-free list. -/
theorem dropWhileNeColon_all (l : List Char) (h : ∀ c ∈ l, c ≠ ':') :
    l.dropWhile (fun c => c ≠ ':') = [] := by
  simp
  exact h

/-- `splitLastColon` on a reference whose tag part is colon-free splits
exactly at that last colon. -/
theorem splitLastColon_append (xs ys : List Char) (h : ∀ c ∈ ys, c ≠ ':') :
    splitLastColon (String.mk (xs ++ ':' :: ys)) = some (String.mk xs, String.mk ys) := by
  have hrev : (xs ++ ':' :: ys).reverse = ys.reverse ++ ':' :: xs.reverse := by
    simp [List.reverse_append]
  have h' : ∀ c ∈ ys.reverse, c ≠ ':' := by
    intro c hc
    exact h c (List.mem_reverse.mp hc)
  have hmem : ':' ∈ (String.mk (xs ++ ':' :: ys)).toList := by
    show ':' ∈ xs ++ ':' :: ys
    exact List.mem_append_right _ (List.mem_cons_self _ _)
  simp only [splitLastColon]
  rw [if_pos hmem]
  have htl : (String.mk (xs ++ ':' :: ys)).toList = xs ++ ':' :: ys := rfl
  rw [htl, hrev, takeWhileNeColon_append _ _ h', dropWhileNeColon_append _ _ h']
  simp

/-- `splitLastColon` of a colon-free reference is `none`. -/
theorem splitLastColon_none (s : String) (h : ∀ c ∈ s.toList, c ≠ ':') :
    splitLastColon s = none := by
  have hmem : ':' ∉ s.toList := fun hc => (h _ hc) rfl
  simp only [splitLastColon]
  rw [if_neg hmem]

/-- C10 amended: the shipped manifest builder splits the reference at
the last colon (`repo:tag` gives a `{repo: {tag: configDigest}}` entry
and `RepoTags = [imageRef]`), but when no colon is present it writes no
repositories entry at all — the `latest` default lives only in the cache
prototype's `writeMetadata`, which splits at the first colon. -/
theorem c10_amended_repo_tag_split :
    (∀ (cfg : String) (xs ys : List Char), (∀ c ∈ ys, c ≠ ':') →
        buildRepositories (String.mk (xs ++ ':' :: ys)) cfg
          = [(String.mk xs, [(String.mk ys, cfg)])])
      ∧ (∀ (cfg s : String), (∀ c ∈ s.toList, c ≠ ':') →
          buildRepositories s cfg = [])
      ∧ (∀ (cfg s : String), (∀ c ∈ s.toList, c ≠ ':') →
          writeMetadataRepositories s cfg = [(s, [("latest", cfg)])])
      ∧ (∀ (configDigest imageRef : String) (ds : List String),
          (buildSingleManifest configDigest imageRef ds).RepoTags = [imageRef]) := by
  refine ⟨?_, ?_, ?_, ?_⟩
  · intro cfg xs ys h
    simp [buildRepositories, splitLastColon_append xs ys h]
  · intro cfg s h
    simp [buildRepositories, splitLastColon_none s h]
  · intro cfg s h
    obtain ⟨data⟩ := s
    simp only [writeMetadataRepositories]
    rw [takeWhileNeColon_all _ h, dropWhileNeColon_all _ h]
    simp
  · intro configDigest imageRef ds
    rfl

/-- C10 witness: the amended statement evaluated at `repo/name:v1` and
at the tagless `repo/name`. -/
theorem c10_amended_repo_tag_split_witness :
    buildRepositories (String.mk ("repo/name".toList ++ ':' :: "v1".toList)) "sha256:c"
        = [(String.mk "repo/name".toList, [(String.mk "v1".toList, "sha256:c")])]
      ∧ writeMetadataRepositories "repo/name" "sha256:c"
        = [("repo/name", [("latest", "sha256:c")])] :=
  ⟨c10_amended_repo_tag_split.1 "sha256:c" _ _ (by decide),
   c10_amended_repo_tag_split.2.2.1 "sha256:c" "repo/name" (by decide)⟩

/-- C2: the code aborts instead of skipping.  On a manifest referencing
the absent layer file `missing.tar`, `assembleImageTar` returns the
`addFileToTar` open error and produces no tar, contradicting the claimed
(and documented, part_000 / manifest_layers_mismatch_analysis.md)
skip-with-warning behavior. -/
theorem c2_assemble_aborts_on_missing_layer :
    assembleImageTar manifestC2 fsC2 = .error (.openFailed "missing.tar")
      ∧ ∀ entries : List TarEntry, assembleImageTar manifestC2 fsC2 ≠ .ok entries := by
  refine ⟨rfl, ?_⟩
  intro entries h
  have h0 : assembleImageTar manifestC2 fsC2 = .error (.openFailed "missing.tar") := rfl
  rw [h0] at h
  exact Except.noConfusion h

/-- C9: the authenticator's result is determined by the probe status: a
200 probe yields the empty token; a 401 probe yields the token decoded
from the realm's response to the URL built from the parsed Bearer
challenge, with scope defaulting to `repository:<repo>:pull` when absent
or empty; any other probe status, and any non-200 token response, is a
fatal error.  The last conjunct evaluates the comma-separated
`key="value"` challenge parsing on a concrete header. -/
theorem c9_auth_flow :
    (∀ (repo hdr : String) (ft : String → TokenResp),
        getAuthToken repo ⟨200, hdr⟩ ft = .ok "")
      ∧ (∀ (repo hdr : String) (ft : String → TokenResp) (s : Nat),
          s ≠ 200 → s ≠ 401 → getAuthToken repo ⟨s, hdr⟩ ft = .error (.probeStatus s))
      ∧ (∀ (repo hdr : String) (ft : String → TokenResp) (t : String),
          (ft (tokenURL (challengeFields repo hdr).1 (challengeFields repo hdr).2.1
              (challengeFields repo hdr).2.2)).status = 200 →
          (ft (tokenURL (challengeFields repo hdr).1 (challengeFields repo hdr).2.1
              (challengeFields repo hdr).2.2)).token = some t →
          getAuthToken repo ⟨401, hdr⟩ ft = .ok t)
      ∧ (∀ (repo hdr : String) (ft : String → TokenResp),
          (ft (tokenURL (challengeFields repo hdr).1 (challengeFields repo hdr).2.1
              (challengeFields repo hdr).2.2)).status ≠ 200 →
          getAuthToken repo ⟨401, hdr⟩ ft
            = .error (.tokenStatus (ft (tokenURL (challengeFields repo hdr).1
                (challengeFields repo hdr).2.1 (challengeFields repo hdr).2.2)).status))
      ∧ (∀ repo hdr : String,
          (lookupLast (parseAuthHeader hdr) "scope").getD "" = "" →
          (challengeFields repo hdr).2.2 = "repository:" ++ repo ++ ":pull")
      ∧ parseAuthHeader "Bearer realm=\"https://auth.example/token\",service=\"registry.example\""
          = [("realm", "https://auth.example/token"), ("service", "registry.example")] := by
  refine ⟨?_, ?_, ?_, ?_, ?_, ?_⟩
  · intro repo hdr ft
    simp [getAuthToken]
  · intro repo hdr ft s h200 h401
    simp [getAuthToken, h200, h401]
  · intro repo hdr ft t h1 h2
    simp [getAuthToken, h1, h2]
  · intro repo hdr ft h1
    simp [getAuthToken, h1]
  · intro repo hdr h
    simp [challengeFields, h]
  · rfl

/-- C9 witness: the theorem applied to a concrete 401 handshake whose
token endpoint answers 200 with token `tok123`. -/
theorem c9_auth_flow_witness :
    getAuthToken "platform/app" ⟨401, "Bearer realm=\"https://auth.example/token\",service=\"registry.example\""⟩
        (fun u => if u = "https://auth.example/token?service=registry.example&scope=repository:platform/app:pull" then ⟨200, some "tok123"⟩ else ⟨500, none⟩)
      = .ok "tok123"
      ∧ getAuthToken "platform/app" ⟨403, ""⟩ (fun _ => ⟨200, some "t"⟩)
        = .error (.probeStatus 403) :=
  ⟨c9_auth_flow.2.2.1 "platform/app"
      "Bearer realm=\"https://auth.example/token\",service=\"registry.example\"" _ "tok123"
      (by rfl) (by rfl),
   c9_auth_flow.2.1 "platform/app" "" _ 403 (by decide) (by decide)⟩

/-- Prepending attempts keeps the outcome's constructor; a success stays
a success with the same file. -/
theorem consTrace_success (t : List Attempt) (o : FetchOutcome)
    (f : Option (List Nat)) (t2 : List Attempt)
    (h : o.consTrace t = .success f t2) : ∃ t3, o = .success f t3 ∧ t2 = t ++ t3 := by
  cases o with
  | success f3 t3 =>
      simp [FetchOutcome.consTrace] at h
      exact ⟨t3, by simp [h.1], h.2.symm⟩
  | failure f3 t3 => simp [FetchOutcome.consTrace] at h
  | undet f3 t3 => simp [FetchOutcome.consTrace] at h

/-- Trace of an outcome with prepended attempts. -/
theorem consTrace_traceOf (t : List Attempt) (o : FetchOutcome) :
    (o.consTrace t).traceOf = t ++ o.traceOf := by
  cases o <;> rfl

/-- Every success of the download loop has a file of the expected size
whose digest validates. -/
theorem downloadLoop_success_spec (sha : List Nat → String) (size : Int) (digest : String) :
    ∀ (fuel : Nat) (oracle : List BlobResp) (file f : Option (List Nat)) (t : List Attempt),
      downloadLoop sha size digest fuel oracle file = .success f t →
      (fileSize f : Int) = size ∧ validateFileIntegrity sha (f.getD []) digest = true := by
  intro fuel
  induction fuel with
  | zero =>
      intro oracle file f t h
      simp [downloadLoop] at h
  | succ n ih =>
      intro oracle file f t h
      simp only [downloadLoop] at h
      split at h
      · next hg =>
          split at h
          · next hv =>
              cases h
              exact ⟨hg.2, hv⟩
          · next hv => exact ih _ _ _ _ h
      · next hg =>
          split at h
          · exact absurd h (by simp)
          · next o f2 t2 heq =>
              obtain ⟨t3, ho, _⟩ := consTrace_success _ _ _ _ h
              exact ih _ _ _ _ ho
          · exact absurd h (by simp)

/-- Every success of `downloadLayerWithRetry` with a nonempty expected
digest (which every call site passes: `digest.String()` renders
`sha256:<hex>`) has a file of exactly the expected size whose rendered
digest equals the expected one. -/
theorem download_success_spec (sha : List Nat → String) (size : Int) (digest : String)
    (fuel : Nat) (oracle : List BlobResp) (file f : Option (List Nat)) (t : List Attempt)
    (hd : digest ≠ "")
    (h : downloadLayerWithRetry sha size digest fuel oracle file = .success f t) :
    (fileSize f : Int) = size ∧ "sha256:" ++ sha (f.getD []) = digest := by
  unfold downloadLayerWithRetry at h
  cases hp : preCheck sha size digest file with
  | finished =>
      rw [hp] at h
      cases h
      unfold preCheck at hp
      split at hp
      · next hg =>
          split at hp
          · next hv =>
              refine ⟨hg.2.2, ?_⟩
              simpa [validateFileIntegrity] using hv
          · next hv => cases hp
      · next hg => cases hp
  | proceed f0 =>
      rw [hp] at h
      have hs := downloadLoop_success_spec sha size digest fuel oracle f0 f t h
      refine ⟨hs.1, ?_⟩
      simpa [validateFileIntegrity] using hs.2

/-- C3: every successful call of `downloadLayerWithRetry` (with the
nonempty digest every call site passes) leaves a destination file of
exactly `expectedSize` bytes whose `sha256:<hex>` digest equals
`expectedDigest`; a call that exhausts its retries returns the failure
to the caller with the partial file left in place — here the bytes `p`
written by the final failed attempt are still on disk in the failure
outcome, not deleted. -/
theorem c3_fetcher_contract :
    (∀ (sha : List Nat → String) (size : Int) (digest : String) (fuel : Nat)
        (oracle : List BlobResp) (file f : Option (List Nat)) (t : List Attempt),
        digest ≠ "" →
        downloadLayerWithRetry sha size digest fuel oracle file = .success f t →
        (fileSize f : Int) = size ∧ "sha256:" ++ sha (f.getD []) = digest)
      ∧ (∀ (sha : List Nat → String) (size : Int) (digest : String) (fuel : Nat) (p : List Nat),
          downloadLayerWithRetry sha size digest (fuel + 1)
              [.netErr, .netErr, .netErr, .netErr, .http 200 true p false] none
            = .failure (some p)
                [⟨0, none, some 4⟩, ⟨0, none, some 6⟩, ⟨0, none, some 8⟩,
                 ⟨0, none, some 10⟩, ⟨0, none, some 12⟩]) := by
  constructor
  · intro sha size digest fuel oracle file f t hd h
    exact download_success_spec sha size digest fuel oracle file f t hd h
  · intro sha size digest fuel p
    have hpre : preCheck sha size digest none = .proceed none := by
      simp [preCheck, fileSize]
    have hg : ¬(0 < size ∧ ((fileSize (none : Option (List Nat)) : Int) = size)) := by
      rintro ⟨h1, h2⟩
      rw [show ((fileSize (none : Option (List Nat)) : Int)) = 0 from rfl] at h2
      omega
    have hg2 : ¬(0 < size ∧ size < (fileSize (none : Option (List Nat)) : Int)) := by
      rintro ⟨h1, h2⟩
      rw [show ((fileSize (none : Option (List Nat)) : Int)) = 0 from rfl] at h2
      omega
    unfold downloadLayerWithRetry
    rw [hpre]
    simp only [downloadLoop]
    rw [if_neg hg, if_neg hg2]
    rfl

/-- C3 witness: the success half at a pre-validated two-byte file, and
the failure half at a run whose last attempt writes two bytes before the
copy fails. -/
theorem c3_fetcher_contract_witness :
    ((fileSize (some [5, 5]) : Int) = 2
        ∧ "sha256:" ++ (fun _ : List Nat => "h") ((some [5, 5]).getD []) = "sha256:h")
      ∧ downloadLayerWithRetry (fun _ => "h") 7 "sha256:h" 1
            [.netErr, .netErr, .netErr, .netErr, .http 200 true [9, 9] false] none
          = .failure (some [9, 9])
              [⟨0, none, some 4⟩, ⟨0, none, some 6⟩, ⟨0, none, some 8⟩,
               ⟨0, none, some 10⟩, ⟨0, none, some 12⟩] :=
  ⟨c3_fetcher_contract.1 (fun _ => "h") 2 "sha256:h" 0 [] (some [5, 5]) (some [5, 5]) []
      (by decide) (by rfl),
   c3_fetcher_contract.2 (fun _ => "h") 7 "sha256:h" 0 [9, 9]⟩

/-- C5 counterexample: in the attempt-cycle that never writes a byte the
backoff sleeps are 4, 6, 8, 10, 12 seconds — `(attempt_number + 1) * 2`,
not the claimed `attempt_number * 2` — because the code increments
`retries` before the request when the file is empty and then sleeps
`(retries+1)*2`; and a cycle that starts from a nonempty partial file
never increments the counter, so it issues more than 5 requests without
exhausting the budget (6 requests below, all failed, no exhaustion). -/
theorem c5_counterexample :
    downloadCycle [.netErr, .netErr, .netErr, .netErr, .netErr] none 0
        = .done [] none false
            [⟨0, none, some 4⟩, ⟨0, none, some 6⟩, ⟨0, none, some 8⟩,
             ⟨0, none, some 10⟩, ⟨0, none, some 12⟩]
      ∧ [some 4, some 6, some 8, some 10, some 12]
          ≠ [some (1 * 2), some (2 * 2), some (3 * 2), some (4 * 2), some (5 * 2)]
      ∧ (downloadCycle (List.replicate 6 BlobResp.netErr) (some [7]) 0).traceOf.length = 6
      ∧ (downloadCycle (List.replicate 6 BlobResp.netErr) (some [7]) 0)
          = .stuck (some [7]) (List.replicate 6 ⟨1, some 1, some 2⟩) := by
  refine ⟨rfl, by decide, rfl, rfl⟩

/-- A non-writing response leaves the file unchanged and downloads no
chunk. -/
theorem applyResp_nonWriting (file : Option (List Nat)) (r : BlobResp)
    (h : nonWriting r = true) : applyResp file r = (file, false) := by
  cases r with
  | netErr => rfl
  | http code openOk body copyOk =>
      cases openOk with
      | false =>
          by_cases h206 : code = 206
          · subst h206
            cases file <;> rfl
          · by_cases h200 : code = 200
            · subst h200
              rfl
            · simp [applyResp, h206, h200]
      | true =>
          simp [nonWriting] at h
          simp [applyResp, h.1, h.2]

/-- Unfolding `nwTrace` by one attempt. -/
theorem nwTrace_cons (retries : Nat) (h : retries < maxRetries) :
    nwTrace retries = ⟨0, none, some ((retries + 2) * 2)⟩ :: nwTrace (retries + 1) := by
  unfold nwTrace
  have hstep : maxRetries - retries = (maxRetries - (retries + 1)) + 1 := by
    unfold maxRetries at h ⊢
    omega
  rw [hstep, List.range_succ_eq_map]
  simp only [List.map_cons, List.map_map, Nat.add_zero]
  refine congrArg₂ List.cons rfl ?_
  refine List.map_congr_left ?_
  intro k hk
  simp only [Function.comp_apply, Attempt.mk.injEq, Option.some.injEq, true_and]
  omega

/-- A cycle over an empty file fed only non-writing responses makes
exactly `maxRetries - retries` further attempts, leaves the file
missing, reports no chunk, and records the increasing backoff. -/
theorem downloadCycle_nonWriting :
    ∀ (oracle : List BlobResp) (retries : Nat),
      (∀ r ∈ oracle, nonWriting r = true) →
      maxRetries - retries ≤ oracle.length →
      retries ≤ maxRetries →
      downloadCycle oracle none retries
        = .done (oracle.drop (maxRetries - retries)) none false (nwTrace retries) := by
  intro oracle
  induction oracle with
  | nil =>
      intro retries hnw hlen hle
      have h5 : maxRetries ≤ retries := by
        simp at hlen
        omega
      have hz : maxRetries - retries = 0 := Nat.sub_eq_zero_of_le h5
      rw [downloadCycle]
      rw [if_pos h5, hz]
      simp [nwTrace, hz]
  | cons r rest ih =>
      intro retries hnw hlen hle
      by_cases h5 : maxRetries ≤ retries
      · have hz : maxRetries - retries = 0 := Nat.sub_eq_zero_of_le h5
        rw [downloadCycle]
        rw [if_pos h5, hz]
        simp [nwTrace, hz]
      · have hlt : retries < maxRetries := Nat.lt_of_not_le h5
        have hr : nonWriting r = true := hnw r (List.mem_cons_self r rest)
        have hrest : ∀ x ∈ rest, nonWriting x = true :=
          fun x hx => hnw x (List.mem_cons_of_mem _ hx)
        have hlen2 : maxRetries - (retries + 1) ≤ rest.length := by
          simp at hlen
          omega
        have hih := ih (retries + 1) hrest hlen2 (by omega)
        rw [downloadCycle]
        rw [if_neg h5]
        simp only [fileSize, applyResp_nonWriting none r hr, Nat.lt_irrefl, if_false]
        rw [hih]
        have hstep : maxRetries - retries = (maxRetries - (retries + 1)) + 1 := by
          unfold maxRetries at hlt ⊢
          omega
        rw [nwTrace_cons retries hlt, hstep]
        rfl

/-- The pre-download check passes a missing file straight through. -/
theorem preCheck_none (sha : List Nat → String) (size : Int) (digest : String) :
    preCheck sha size digest none = .proceed none := by
  simp [preCheck, fileSize]

/-- For a missing file the outer loop's completed-size and truncation
guards are both off, so the iteration is one inner retry cycle. -/
theorem downloadLoop_none_step (sha : List Nat → String) (size : Int) (digest : String)
    (fuel : Nat) (oracle : List BlobResp) :
    downloadLoop sha size digest (fuel + 1) oracle none
      = match downloadCycle oracle none 0 with
        | .stuck f t => .undet f t
        | .done o f true t => (downloadLoop sha size digest fuel o f).consTrace t
        | .done _ f false t => .failure f t := by
  have hg : ¬(0 < size ∧ ((fileSize (none : Option (List Nat)) : Int) = size)) := by
    rintro ⟨h1, h2⟩
    rw [show ((fileSize (none : Option (List Nat)) : Int)) = 0 from rfl] at h2
    omega
  have hg2 : ¬(0 < size ∧ size < (fileSize (none : Option (List Nat)) : Int)) := by
    rintro ⟨h1, h2⟩
    rw [show ((fileSize (none : Option (List Nat)) : Int)) = 0 from rfl] at h2
    omega
  simp only [downloadLoop]
  rw [if_neg hg, if_neg hg2]

/-- C5 amended: when every response of the oracle opens no file (every
attempt fails before a byte is written) and the destination file is
missing, the fetch makes exactly `maxRetries = 5` attempts, sleeping
`(n+1)*2` seconds after the n-th failed attempt (4, 6, 8, 10, 12 — the
counter is incremented before the request for attempts that start from
an empty file), and then propagates a non-nil error (the failure
outcome) to the caller.  Attempts that start from a nonempty partial
file do not consume this budget (see the C5 counterexample). -/
theorem c5_amended_retry_budget
    (sha : List Nat → String) (size : Int) (digest : String) (fuel : Nat)
    (oracle : List BlobResp)
    (hnw : ∀ r ∈ oracle, nonWriting r = true)
    (hlen : maxRetries ≤ oracle.length) :
    downloadLayerWithRetry sha size digest (fuel + 1) oracle none
        = .failure none (nwTrace 0)
      ∧ (nwTrace 0).length = maxRetries
      ∧ nwTrace 0
          = [⟨0, none, some 4⟩, ⟨0, none, some 6⟩, ⟨0, none, some 8⟩,
             ⟨0, none, some 10⟩, ⟨0, none, some 12⟩] := by
  refine ⟨?_, by decide, by decide⟩
  have hc := downloadCycle_nonWriting oracle 0 hnw (by simpa using hlen) (by omega)
  unfold downloadLayerWithRetry
  rw [preCheck_none]
  show downloadLoop sha size digest (fuel + 1) oracle none = FetchOutcome.failure none (nwTrace 0)
  rw [downloadLoop_none_step, hc]

/-- C5 witness: the amended statement at the concrete oracle of five
transport errors. -/
theorem c5_amended_retry_budget_witness :
    downloadLayerWithRetry (fun _ => "x") 3 "sha256:x" 1
        (List.replicate 5 BlobResp.netErr) none
      = .failure none (nwTrace 0) :=
  (c5_amended_retry_budget (fun _ => "x") 3 "sha256:x" 0
    (List.replicate 5 BlobResp.netErr) (by decide) (by decide)).1

/-- First attempt of a retry cycle with at least one response: the
request is issued at the current file size, with a Range header exactly
when that size is positive. -/
theorem downloadCycle_first (r : BlobResp) (rest : List BlobResp) (file : Option (List Nat))
    (retries : Nat) (h : retries < maxRetries) :
    ∃ s t2, (downloadCycle (r :: rest) file retries).traceOf
      = ⟨fileSize file, if 0 < fileSize file then some (fileSize file) else none, s⟩ :: t2 := by
  rw [downloadCycle]
  rw [if_neg (Nat.not_le_of_lt h)]
  rcases hres : applyResp file r with ⟨f2, got⟩
  cases got
  · rcases hcy : downloadCycle rest f2 (if 0 < fileSize file then retries else retries + 1) with
      ⟨o, f3, k, t⟩ | ⟨f3, t⟩
    · refine ⟨some (((if 0 < fileSize file then retries else retries + 1) + 1) * 2), t, ?_⟩
      simp [hres, hcy, CycleResult.traceOf]
    · refine ⟨some (((if 0 < fileSize file then retries else retries + 1) + 1) * 2), t, ?_⟩
      simp [hres, hcy, CycleResult.traceOf]
  · refine ⟨none, [], ?_⟩
    simp [hres, CycleResult.traceOf]

/-- When the completed-size guard is off, the attempts of the first
inner cycle (run on the possibly truncated file) are a prefix of the
call's whole attempt trace. -/
theorem downloadLoop_trace_front (sha : List Nat → String) (size : Int) (digest : String)
    (fuel : Nat) (oracle : List BlobResp) (file file1 : Option (List Nat))
    (hg : ¬(0 < size ∧ (fileSize file : Int) = size))
    (hf1 : (if 0 < size ∧ size < (fileSize file : Int) then some ([] : List Nat) else file)
        = file1) :
    ∃ t2, (downloadLoop sha size digest (fuel + 1) oracle file).traceOf
        = (downloadCycle oracle file1 0).traceOf ++ t2 := by
  simp only [downloadLoop]
  rw [if_neg hg, hf1]
  rcases hcy : downloadCycle oracle file1 0 with ⟨o, f, k, t⟩ | ⟨f, t⟩
  · cases k
    · refine ⟨[], ?_⟩
      simp [CycleResult.traceOf, FetchOutcome.traceOf]
    · refine ⟨(downloadLoop sha size digest fuel o f).traceOf, ?_⟩
      simp [CycleResult.traceOf, consTrace_traceOf]
  · refine ⟨[], ?_⟩
    simp [CycleResult.traceOf, FetchOutcome.traceOf]

/-- A file whose size differs from the expected size passes the
pre-download check unchanged. -/
theorem preCheck_proceed_of_ne (sha : List Nat → String) (size : Int) (digest : String)
    (file : Option (List Nat)) (h : (fileSize file : Int) ≠ size) :
    preCheck sha size digest file = .proceed file := by
  unfold preCheck
  rw [if_neg fun hc => h hc.2.2]

/-- The very first request of a fetch whose pre-download check falls
through to `f0`: it is issued at the size of the (possibly truncated)
file `file1`, with a Range header exactly when that size is positive. -/
theorem downloadLayer_first_request (sha : List Nat → String) (size : Int) (digest : String)
    (fuel : Nat) (r : BlobResp) (rest : List BlobResp) (file f0 file1 : Option (List Nat))
    (hpre : preCheck sha size digest file = .proceed f0)
    (hg : ¬(0 < size ∧ (fileSize f0 : Int) = size))
    (hf1 : (if 0 < size ∧ size < (fileSize f0 : Int) then some ([] : List Nat) else f0)
        = file1) :
    ((downloadLayerWithRetry sha size digest (fuel + 1) (r :: rest) file).traceOf.head?).map
        (fun a => (a.fsizeAtReq, a.range))
      = some (fileSize file1, if 0 < fileSize file1 then some (fileSize file1) else none) := by
  unfold downloadLayerWithRetry
  rw [hpre]
  show ((downloadLoop sha size digest (fuel + 1) (r :: rest) f0).traceOf.head?).map
      (fun a => (a.fsizeAtReq, a.range)) = _
  obtain ⟨t2, ht⟩ := downloadLoop_trace_front sha size digest fuel (r :: rest) f0 file1 hg hf1
  rw [ht]
  obtain ⟨s, t3, hcy⟩ := downloadCycle_first r rest file1 0 (by decide)
  rw [hcy]
  rfl

/-- C6: a fetch whose destination already holds `N` bytes with
`0 < N < expectedSize` issues its first request with on-disk size `N`
and header `Range: bytes=N-`; and whenever such a call completes
successfully the file has exactly `expectedSize` bytes and its rendered
digest equals the expected one. -/
theorem c6_range_resume
    (sha : List Nat → String) (size : Int) (digest : String) (fuel : Nat)
    (r : BlobResp) (rest : List BlobResp) (c : List Nat)
    (hpos : 0 < c.length) (hlt : (c.length : Int) < size) :
    ((downloadLayerWithRetry sha size digest (fuel + 1) (r :: rest) (some c)).traceOf.head?).map
        (fun a => (a.fsizeAtReq, a.range))
      = some (c.length, some c.length)
    ∧ (∀ (f : Option (List Nat)) (t : List Attempt),
        digest ≠ "" →
        downloadLayerWithRetry sha size digest (fuel + 1) (r :: rest) (some c) = .success f t →
        (fileSize f : Int) = size ∧ "sha256:" ++ sha (f.getD []) = digest) := by
  have hfs : fileSize (some c) = c.length := rfl
  have hne : (fileSize (some c) : Int) ≠ size := by
    rw [hfs]
    omega
  constructor
  · have h1 := downloadLayer_first_request sha size digest fuel r rest (some c) (some c) (some c)
      (preCheck_proceed_of_ne sha size digest (some c) hne)
      (fun hc => hne hc.2)
      (by
        rw [if_neg]
        rintro ⟨h1, h2⟩
        rw [hfs] at h2
        omega)
    rw [h1, hfs, if_pos hpos]
  · intro f t hd h
    exact download_success_spec sha size digest (fuel + 1) (r :: rest) (some c) f t hd h

/-- C6 witness: resuming a 2-byte partial file with expected size 3
issues `Range: bytes=2-`. -/
theorem c6_range_resume_witness :
    ((downloadLayerWithRetry (fun _ => "x") 3 "sha256:x" 1
        [BlobResp.http 206 true [9] true] (some [1, 2])).traceOf.head?).map
        (fun a => (a.fsizeAtReq, a.range))
      = some (2, some 2) :=
  (c6_range_resume (fun _ => "x") 3 "sha256:x" 0 (BlobResp.http 206 true [9] true) [] [1, 2]
    (by decide) (by decide)).1

/-- C7: a fetch whose destination holds more bytes than the positive
expected size truncates the file to zero before the new download, so the
first request is issued at on-disk size 0 with no Range header — on-disk
bytes never exceed the expected total at the start of an attempt. -/
theorem c7_truncate_oversized
    (sha : List Nat → String) (size : Int) (digest : String) (fuel : Nat)
    (r : BlobResp) (rest : List BlobResp) (c : List Nat)
    (hs : 0 < size) (hbig : size < (c.length : Int)) :
    (if 0 < size ∧ size < (fileSize (some c) : Int) then some ([] : List Nat) else some c)
        = some []
    ∧ ((downloadLayerWithRetry sha size digest (fuel + 1) (r :: rest) (some c)).traceOf.head?).map
        (fun a => (a.fsizeAtReq, a.range))
      = some (0, none) := by
  have hfs : fileSize (some c) = c.length := rfl
  have hcond : 0 < size ∧ size < (fileSize (some c) : Int) := by
    refine ⟨hs, ?_⟩
    rw [hfs]
    exact hbig
  have htr : (if 0 < size ∧ size < (fileSize (some c) : Int) then some ([] : List Nat)
      else some c) = some [] := by
    rw [if_pos hcond]
  refine ⟨htr, ?_⟩
  have hne : (fileSize (some c) : Int) ≠ size := by
    rw [hfs]
    omega
  have h1 := downloadLayer_first_request sha size digest fuel r rest (some c) (some c) (some [])
    (preCheck_proceed_of_ne sha size digest (some c) hne)
    (fun hc => hne hc.2) htr
  rw [h1]
  rfl

/-- C7 witness: a 4-byte file with expected size 2 is truncated and the
first request carries no Range header. -/
theorem c7_truncate_oversized_witness :
    ((downloadLayerWithRetry (fun _ => "x") 2 "sha256:x" 1
        [BlobResp.netErr] (some [1, 2, 3, 4])).traceOf.head?).map
        (fun a => (a.fsizeAtReq, a.range))
      = some (0, none) :=
  (c7_truncate_oversized (fun _ => "x") 2 "sha256:x" 0 BlobResp.netErr [] [1, 2, 3, 4]
    (by decide) (by decide)).2

/-- C8: a destination file of exactly the expected size whose digest
does not match (with the nonempty expected digest every call site
passes) is deleted by the pre-download check and fully re-fetched — the
first request is issued at on-disk size 0 with no Range header; and no
call of the fetcher ever returns success with a digest different from
the expected one. -/
theorem c8_wrong_digest_refetch
    (sha : List Nat → String) (size : Int) (digest : String) (fuel : Nat)
    (r : BlobResp) (rest : List BlobResp) (c : List Nat)
    (hd : digest ≠ "") (hpos : 0 < c.length) (hsz : (c.length : Int) = size)
    (hwrong : "sha256:" ++ sha c ≠ digest) :
    preCheck sha size digest (some c) = .proceed none
    ∧ ((downloadLayerWithRetry sha size digest (fuel + 1) (r :: rest) (some c)).traceOf.head?).map
        (fun a => (a.fsizeAtReq, a.range))
      = some (0, none)
    ∧ (∀ (fuel2 : Nat) (oracle2 : List BlobResp) (file2 f : Option (List Nat)) (t : List Attempt),
        downloadLayerWithRetry sha size digest fuel2 oracle2 file2 = .success f t →
        "sha256:" ++ sha (f.getD []) = digest) := by
  have hcond : 0 < (fileSize (some c) : Int) ∧ 0 < size ∧ (fileSize (some c) : Int) = size := by
    refine ⟨?_, ?_, hsz⟩
    · show (0 : Int) < (c.length : Int)
      exact_mod_cast hpos
    · rw [← hsz]
      exact_mod_cast hpos
  have hv : validateFileIntegrity sha c digest = false := by
    simp only [validateFileIntegrity, beq_eq_false_iff_ne, ne_eq]
    exact hwrong
  have hpre : preCheck sha size digest (some c) = .proceed none := by
    unfold preCheck
    rw [if_pos hcond]
    simp [hv, hd]
  refine ⟨hpre, ?_, ?_⟩
  · have h1 := downloadLayer_first_request sha size digest fuel r rest (some c) none none
      hpre
      (by
        rintro ⟨h1, h2⟩
        rw [show ((fileSize (none : Option (List Nat)) : Int)) = 0 from rfl] at h2
        omega)
      (by
        rw [if_neg]
        rintro ⟨h1, h2⟩
        rw [show ((fileSize (none : Option (List Nat)) : Int)) = 0 from rfl] at h2
        omega)
    rw [h1]
    rfl
  · intro fuel2 oracle2 file2 f t h
    exact (download_success_spec sha size digest fuel2 oracle2 file2 f t hd h).2

/-- C8 witness: a full-size two-byte file with a wrong digest is
deleted and the refetch starts from zero. -/
theorem c8_wrong_digest_refetch_witness :
    preCheck (fun _ => "bad") 2 "sha256:good" (some [1, 2]) = .proceed none
      ∧ ((downloadLayerWithRetry (fun _ => "bad") 2 "sha256:good" 1
          [BlobResp.netErr] (some [1, 2])).traceOf.head?).map
          (fun a => (a.fsizeAtReq, a.range))
        = some (0, none) :=
  ⟨(c8_wrong_digest_refetch (fun _ => "bad") 2 "sha256:good" 0 BlobResp.netErr [] [1, 2]
      (by decide) (by decide) (by decide) (by decide)).1,
   (c8_wrong_digest_refetch (fun _ => "bad") 2 "sha256:good" 0 BlobResp.netErr [] [1, 2]
      (by decide) (by decide) (by decide) (by decide)).2.1⟩
